import Mathlib

/-!
# Verification of the `ttn2sqlite` ingestion pipeline (`src/main.rs`)

Shallow embedding of the program: the TTN uplink data model (`UplinkMessage`,
`UplinkMetadata`, `Payload`), the Base64 payload decode
(`deserialize_payload`, built on `base64::decode_config_slice` with the
`STANDARD` config), the JSON deserialization performed by
`serde_json::from_str` with the zero-copy `&str` borrowing of the derived
`Deserialize` impls, the per-line processor `process_line`, and the stdin
ingestion loop of `main`.

Modeling conventions:
* bytes and `u32` values are `Nat` (with explicit range checks where the
  Rust code enforces them), `f64` JSON numbers are modelled exactly as
  rationals in lowest terms (the program never computes with them, it only
  passes them through to SQLite),
* fallible operations return `Option`/`DeResult`,
* a Rust panic (process abort) is the `DeResult.crash` constructor:
  `base64::decode_config_slice` (base64 0.10–0.13, the era pinned by the
  program's use of `decode_config_slice` and `rusqlite::NO_PARAMS`) is
  documented to panic when the output slice is smaller than the decoded
  length, and `main.rs` passes the fixed 512-byte `Payload.bytes` buffer,
* console output and SQLite inserts are recorded as an explicit `Effect`
  trace; success or failure of an insert is an oracle parameter
  `exec : List SqlValue → Bool` standing for the external database.
-/

set_option maxRecDepth 100000

namespace Ttn

/-! ## Base64 (model of the `base64` crate, `STANDARD` config)

`base64::STANDARD`: alphabet `A–Z a–z 0–9 + /`, `=` padding, strict
rejection of non-zero trailing bits (`decode_allow_trailing_bits = false`).
The decode processes the input in 4-symbol groups; `=` is accepted only at
the end of the final group and only in its last two positions; a final
group of a single symbol is an invalid length.  Decode-error details
(`InvalidByte`/`InvalidLength`/`InvalidLastSymbol`) are collapsed to
`none`, since the program only converts them to a custom serde error
message. -/

/-- Value of one Base64 symbol of the `STANDARD` alphabet (the decode
table): `A–Z ↦ 0–25`, `a–z ↦ 26–51`, `0–9 ↦ 52–61`, `+ ↦ 62`, `/ ↦ 63`. -/
def b64val (c : Char) : Option Nat :=
  let k := c.toNat
  if 65 ≤ k ∧ k ≤ 90 then some (k - 65)
  else if 97 ≤ k ∧ k ≤ 122 then some (k - 71)
  else if 48 ≤ k ∧ k ≤ 57 then some (k + 4)
  else if k = 43 then some 62
  else if k = 47 then some 63
  else none

/-- The `STANDARD` encode table: the symbol for a 6-bit value. -/
def b64char (n : Nat) : Char :=
  if n < 26 then Char.ofNat (65 + n)
  else if n < 52 then Char.ofNat (97 + (n - 26))
  else if n < 62 then Char.ofNat (48 + (n - 52))
  else if n = 62 then '+' else '/'

/-- Decode a final group of two symbols (one output byte); the four unused
low bits of the second symbol must be zero (`InvalidLastSymbol` otherwise). -/
def b64final2 (c1 c2 : Char) : Option (List Nat) := do
  let v1 ← b64val c1
  let v2 ← b64val c2
  if v2 % 16 = 0 then some [v1 * 4 + v2 / 16] else none

/-- Decode a final group of three symbols (two output bytes); the two unused
low bits of the third symbol must be zero. -/
def b64final3 (c1 c2 c3 : Char) : Option (List Nat) := do
  let v1 ← b64val c1
  let v2 ← b64val c2
  let v3 ← b64val c3
  if v3 % 4 = 0 then some [v1 * 4 + v2 / 16, v2 % 16 * 16 + v3 / 4] else none

/-- Decode a full group of four symbols into three bytes. -/
def b64full (c1 c2 c3 c4 : Char) : Option (List Nat) := do
  let v1 ← b64val c1
  let v2 ← b64val c2
  let v3 ← b64val c3
  let v4 ← b64val c4
  some [v1 * 4 + v2 / 16, v2 % 16 * 16 + v3 / 4, v3 % 4 * 64 + v4]

/-- Decode the final 4-character group, which may end in `=` padding
(`xx==` or `xxx=`); `=` anywhere else in the group is an invalid byte
(`b64val '=' = none` rejects it in the unpadded branches). -/
def b64finalGroup (c1 c2 c3 c4 : Char) : Option (List Nat) :=
  if c4 = '=' then
    if c3 = '=' then b64final2 c1 c2 else b64final3 c1 c2 c3
  else b64full c1 c2 c3 c4

/-- Group-wise Base64 decode of a character list: 4-symbol groups from the
left; only the final group may be partial (2 or 3 symbols, no padding) or
padded; a leftover single symbol is an invalid length. -/
def b64decodeChars : List Char → Option (List Nat)
  | [] => some []
  | [_] => none
  | [c1, c2] => b64final2 c1 c2
  | [c1, c2, c3] => b64final3 c1 c2 c3
  | c1 :: c2 :: c3 :: c4 :: rest =>
    if rest.isEmpty then b64finalGroup c1 c2 c3 c4
    else do
      let bs ← b64full c1 c2 c3 c4
      let tl ← b64decodeChars rest
      some (bs ++ tl)

/-- Base64 decode of a string (the pure value part of
`base64::decode_config_slice`'s behaviour). -/
def b64decode (s : String) : Option (List Nat) := b64decodeChars s.data

/-- Standard padded Base64 encode of a byte list, 3 bytes per 4 symbols,
`=`-padded final group. -/
def b64encodeChars : List Nat → List Char
  | [] => []
  | [b1] => [b64char (b1 / 4), b64char (b1 % 4 * 16), '=', '=']
  | [b1, b2] => [b64char (b1 / 4), b64char (b1 % 4 * 16 + b2 / 16), b64char (b2 % 16 * 4), '=']
  | b1 :: b2 :: b3 :: rest =>
    b64char (b1 / 4) :: b64char (b1 % 4 * 16 + b2 / 16) ::
    b64char (b2 % 16 * 4 + b3 / 64) :: b64char (b3 % 64) :: b64encodeChars rest

/-- Standard padded Base64 encode of a byte list as a string. -/
def b64encode (bs : List Nat) : String := ⟨b64encodeChars bs⟩

/-! ## The payload buffer (`struct Payload` of `main.rs`) -/

/-- `struct Payload { bytes: [u8; Payload::MAX_PAYLOAD_SIZE], size: usize }`:
the fixed buffer is a byte list (of length `MAX_PAYLOAD_SIZE` for every
value the program constructs) together with the logical size. -/
structure Payload where
  bytes : List Nat
  size : Nat
deriving DecidableEq, Repr

namespace Payload

/-- `const MAX_PAYLOAD_SIZE: usize = 512` — the maximum payload size in
bytes, as defined by TTN. -/
def MAX_PAYLOAD_SIZE : Nat := 512

/-- `Payload::empty()`: a zeroed buffer with logical size 0. -/
def empty : Payload := ⟨List.replicate MAX_PAYLOAD_SIZE 0, 0⟩

/-- `Payload::as_slice()`: `&self.bytes[0..self.size]`. -/
def as_slice (p : Payload) : List Nat := p.bytes.take p.size

end Payload

/-- Result of a deserialization step that can, besides succeeding or
failing with a serde error (reported as the program's `FormatError`
/ `Error::Json`), abort the whole process with a Rust panic. -/
inductive DeResult (α : Type) where
  | crash
  | fail
  | ok (a : α)
deriving DecidableEq, Repr

/-- In-place write of the decoded bytes into the front of a buffer, as
`decode_config_slice` does: positions past the decoded length keep their
previous contents. -/
def writeInto (buf bs : List Nat) : List Nat := bs ++ buf.drop bs.length

/-- Model of `base64::decode_config_slice(input, base64::STANDARD, buf)`
(base64 0.10–0.13): on malformed Base64 it returns the decode error; on
well-formed input it writes the decoded bytes into the front of `buf` and
returns their count — unless they do not fit into `buf`, in which case it
panics ("If the slice is not large enough, this will panic"). -/
def decode_config_slice (input : String) (buf : List Nat) :
    DeResult (List Nat × Nat) :=
  match b64decode input with
  | none => .fail
  | some bs =>
    if bs.length ≤ buf.length then .ok (writeInto buf bs, bs.length)
    else .crash

/-! ## JSON values (model of the `serde_json` parser)

`serde_json::from_str` drives the derived `Deserialize` impls directly from
the text, in the textual order of the fields.  We model this in two stages
that are observationally equivalent: parse the line into a JSON value tree
that keeps the textual field order and, for every string, whether its
literal contained an escape sequence (escapes are what force `serde_json`
to hand the visitor a transient, non-borrowed string, which makes the
zero-copy `&str` fields of `main.rs` fail); then run the field-order
deserializer over the tree.

Numbers follow `serde_json`'s default (non-`arbitrary_precision`)
behaviour: an integer literal within `i64`/`u64` range stays an integer;
any other number — a literal with a fraction or exponent, or an integer
overflowing 64 bits — becomes a float.  Float values are modelled exactly
as rationals; the program never computes with them. -/

/-- Fuel-based Euclid: `fgcdAux fuel a b` computes `gcd a b` when
`fuel > b`.  (Core's `Nat.gcd` is compiled by well-founded recursion, which
the kernel cannot evaluate; this structural version can be evaluated on
any concrete input.) -/
def fgcdAux : Nat → Nat → Nat → Nat
  | 0, a, _ => a
  | fuel + 1, a, b => if b = 0 then a else fgcdAux fuel b (a % b)

/-- Greatest common divisor, kernel-evaluable. -/
def fgcd (a b : Nat) : Nat := fgcdAux (b + 1) a b

/-- An exact rational `num / den` in lowest terms with positive `den`:
the model of an `f64` JSON number's exact decimal value.  (The program
never computes with its floats — it only passes them from the JSON text to
SQLite — so the exact rational value is a faithful model.) -/
structure ExactRat where
  num : Int
  den : Nat
deriving DecidableEq, Repr

/-- Reduce `n / d` to lowest terms (`d` is always positive here). -/
def ExactRat.normalize (n : Int) (d : Nat) : ExactRat :=
  let g := fgcd n.natAbs d
  if g = 0 then ⟨0, 1⟩ else ⟨n / (g : Int), d / g⟩

/-- A parsed JSON number: `int` for integer literals in `i64`/`u64` range,
`float` (exact rational) for everything else. -/
inductive JNum where
  | int (i : Int)
  | float (q : ExactRat)
deriving DecidableEq, Repr

mutual
/-- A parsed JSON value.  `str` carries whether the literal contained an
escape sequence. Object fields keep textual order. -/
inductive JValue where
  | null
  | bool (b : Bool)
  | num (n : JNum)
  | str (s : String) (hadEscape : Bool)
  | arr (elems : JArr)
  | obj (fields : JObj)

/-- Array elements in textual order. -/
inductive JArr where
  | nil
  | cons (hd : JValue) (tl : JArr)

/-- Object members in textual order (keys store decoded content; serde
matches field identifiers on content, so the escape flag of a key is
irrelevant). -/
inductive JObj where
  | nil
  | cons (key : String) (val : JValue) (tl : JObj)
end

deriving instance DecidableEq for JValue
deriving instance DecidableEq for JArr
deriving instance DecidableEq for JObj

/-- First value bound to `key`, in textual order. -/
def jlookup : JObj → String → Option JValue
  | .nil, _ => none
  | .cons k v tl, key => if k = key then some v else jlookup tl key

/-! ### The character-level JSON grammar -/

/-- JSON inter-token whitespace. -/
def isWs (c : Char) : Bool :=
  c == ' ' || c == '\t' || c == '\n' || c == '\x0d'

/-- Drop leading whitespace. -/
def skipWs : List Char → List Char
  | [] => []
  | c :: rest => if isWs c then skipWs rest else c :: rest

/-- Value of a hexadecimal digit. -/
def hexVal (c : Char) : Option Nat :=
  let k := c.toNat
  if 48 ≤ k ∧ k ≤ 57 then some (k - 48)
  else if 65 ≤ k ∧ k ≤ 70 then some (k - 55)
  else if 97 ≤ k ∧ k ≤ 102 then some (k - 87)
  else none

/-- Is `c` a decimal digit? -/
def isDigit (c : Char) : Bool := 48 ≤ c.toNat && c.toNat ≤ 57

/-- Body of a JSON string after the opening quote: returns the decoded
content, whether any `\\` escape occurred, and the input after the closing
quote.  Raw control characters are rejected, as `serde_json` does.  A
`\\uXXXX` escape is decoded as a single code point (the pairing of
surrogate halves is simplified away; no claim touches it). -/
def parseStringBody (fuel : Nat) (cs : List Char) (acc : List Char) (esc : Bool) :
    Option (String × Bool × List Char) :=
  match fuel, cs with
  | 0, _ => none
  | _ + 1, [] => none
  | f + 1, c :: rest =>
    if c = '"' then some (⟨acc.reverse⟩, esc, rest)
    else if c = '\\' then
      match rest with
      | [] => none
      | e :: rest2 =>
        if e = '"' then parseStringBody f rest2 ('"' :: acc) true
        else if e = '\\' then parseStringBody f rest2 ('\\' :: acc) true
        else if e = '/' then parseStringBody f rest2 ('/' :: acc) true
        else if e = 'b' then parseStringBody f rest2 ('\x08' :: acc) true
        else if e = 'f' then parseStringBody f rest2 ('\x0c' :: acc) true
        else if e = 'n' then parseStringBody f rest2 ('\n' :: acc) true
        else if e = 'r' then parseStringBody f rest2 ('\x0d' :: acc) true
        else if e = 't' then parseStringBody f rest2 ('\t' :: acc) true
        else if e = 'u' then
          match rest2 with
          | h1 :: h2 :: h3 :: h4 :: rest3 => do
            let a ← hexVal h1
            let b ← hexVal h2
            let c' ← hexVal h3
            let d ← hexVal h4
            parseStringBody f rest3 (Char.ofNat (a * 4096 + b * 256 + c' * 16 + d) :: acc) true
          | _ => none
        else none
    else if c.toNat < 32 then none
    else parseStringBody f rest (c :: acc) esc

/-- Take a maximal run of decimal digits (as digit values). -/
def takeDigits : List Char → List Nat × List Char
  | [] => ([], [])
  | c :: rest =>
    if isDigit c then
      let (ds, r) := takeDigits rest
      ((c.toNat - 48) :: ds, r)
    else ([], c :: rest)

/-- Numeric value of a digit-value list. -/
def digitsVal (ds : List Nat) : Nat := ds.foldl (fun a d => a * 10 + d) 0

/-- Fraction and exponent part of a number, given its sign and integer
part. Integer literals within 64-bit range stay `JNum.int`; fraction,
exponent, or 64-bit overflow produce `JNum.float` (exact rational), as
`serde_json` falls back to `f64` for those. -/
def parseNumTail (neg : Bool) (ip : Nat) (cs : List Char) : Option (JNum × List Char) :=
  let fracRes : Option (List Nat × List Char) :=
    match cs with
    | '.' :: rest =>
      match takeDigits rest with
      | ([], _) => none
      | (ds, r) => some (ds, r)
    | _ => some ([], cs)
  match fracRes with
  | none => none
  | some (fds, cs2) =>
    let expRes : Option (Option Int × List Char) :=
      match cs2 with
      | e :: rest =>
        if e = 'e' ∨ e = 'E' then
          let (eneg, rest2) :=
            match rest with
            | '-' :: r => (true, r)
            | '+' :: r => (false, r)
            | _ => (false, rest)
          match takeDigits rest2 with
          | ([], _) => none
          | (ds, r) =>
            some (some (if eneg then -(digitsVal ds : Int) else (digitsVal ds : Int)), r)
        else some (none, cs2)
      | [] => some (none, [])
    match expRes with
    | none => none
    | some (eo, cs3) =>
      if fds.isEmpty ∧ eo.isNone then
        let i : Int := if neg then -(ip : Int) else (ip : Int)
        if -(2 ^ 63 : Int) ≤ i ∧ i < 2 ^ 64 then some (.int i, cs3)
        else some (.float ⟨i, 1⟩, cs3)
      else
        let mantissa : Nat := ip * 10 ^ fds.length + digitsVal fds
        let num : Int := if neg then -(mantissa : Int) else (mantissa : Int)
        let e : Int := eo.getD 0
        let q : ExactRat :=
          if 0 ≤ e then ExactRat.normalize (num * (10 : Int) ^ e.toNat) (10 ^ fds.length)
          else ExactRat.normalize num (10 ^ fds.length * 10 ^ (-e).toNat)
        some (.float q, cs3)

/-- A JSON number: optional `-`, integer part without leading zeros, then
fraction and exponent. -/
def parseNumber (cs : List Char) : Option (JNum × List Char) :=
  let (neg, cs1) :=
    match cs with
    | '-' :: rest => (true, rest)
    | _ => (false, cs)
  match cs1 with
  | [] => none
  | c :: rest =>
    if c = '0' then
      match rest with
      | d :: _ => if isDigit d then none else parseNumTail neg 0 rest
      | [] => parseNumTail neg 0 []
    else if isDigit c then
      let (ds, r) := takeDigits rest
      parseNumTail neg (digitsVal ((c.toNat - 48) :: ds)) r
    else none

mutual
/-- Parse one JSON value (leading whitespace allowed).  The fuel bounds
recursion depth, mirroring `serde_json`'s recursion limit; the top-level
entry point supplies more fuel than any input of its length can consume. -/
def parseValue : Nat → List Char → Option (JValue × List Char)
  | 0, _ => none
  | f + 1, cs =>
    match skipWs cs with
    | [] => none
    | c :: rest =>
      if c = '"' then
        match parseStringBody (rest.length + 1) rest [] false with
        | none => none
        | some (s, e, r) => some (.str s e, r)
      else if c = '\x7b' then
        match skipWs rest with
        | '\x7d' :: r2 => some (.obj .nil, r2)
        | cs2 =>
          match parseMembers f cs2 with
          | none => none
          | some (fs, r2) => some (.obj fs, r2)
      else if c = '[' then
        match skipWs rest with
        | ']' :: r2 => some (.arr .nil, r2)
        | cs2 =>
          match parseElems f cs2 with
          | none => none
          | some (vs, r2) => some (.arr vs, r2)
      else if c = 't' then
        match rest with
        | 'r' :: 'u' :: 'e' :: r2 => some (.bool true, r2)
        | _ => none
      else if c = 'f' then
        match rest with
        | 'a' :: 'l' :: 's' :: 'e' :: r2 => some (.bool false, r2)
        | _ => none
      else if c = 'n' then
        match rest with
        | 'u' :: 'l' :: 'l' :: r2 => some (.null, r2)
        | _ => none
      else
        match parseNumber (c :: rest) with
        | none => none
        | some (n, r2) => some (.num n, r2)

/-- Parse the members of an object after its `\x7b`, up to and including
the closing `\x7d`. -/
def parseMembers : Nat → List Char → Option (JObj × List Char)
  | 0, _ => none
  | f + 1, cs =>
    match skipWs cs with
    | '"' :: rest =>
      match parseStringBody (rest.length + 1) rest [] false with
      | none => none
      | some (k, _, r1) =>
        match skipWs r1 with
        | ':' :: r2 =>
          match parseValue f r2 with
          | none => none
          | some (v, r3) =>
            match skipWs r3 with
            | ',' :: r4 =>
              match parseMembers f r4 with
              | none => none
              | some (fs, r5) => some (.cons k v fs, r5)
            | '\x7d' :: r4 => some (.cons k v .nil, r4)
            | _ => none
        | _ => none
    | _ => none

/-- Parse the elements of an array after its `[`, up to and including the
closing `]`. -/
def parseElems : Nat → List Char → Option (JArr × List Char)
  | 0, _ => none
  | f + 1, cs =>
    match parseValue f cs with
    | none => none
    | some (v, r1) =>
      match skipWs r1 with
      | ',' :: r2 =>
        match parseElems f r2 with
        | none => none
        | some (vs, r3) => some (.cons v vs, r3)
      | ']' :: r2 => some (.cons v .nil, r2)
      | _ => none
end

/-- Parse a whole input line as a single JSON value followed only by
whitespace, as `serde_json::from_str` requires. -/
def parseJson (s : String) : Option JValue :=
  match parseValue (2 * s.length + 2) s.data with
  | none => none
  | some (v, rest) => if (skipWs rest).isEmpty then some v else none

/-! ## The derived deserializers (`#[derive(Deserialize)]` of `main.rs`)

The derived `Deserialize` impls of `UplinkMessage` and `UplinkMetadata`
walk the object members in textual order; a known field met twice is a
duplicate-field error, an unknown field is skipped, a missing required
field is an error at the end.  The `&'l str` fields are zero-copy borrows:
they only accept strings whose literal had no escape sequence.  `u32`
fields accept exactly integer literals in `[0, 2^32)`.  `f64` fields accept
any number.  Serde error details are collapsed to failure, since the
program only prints them. -/

/-- Zero-copy `&str` deserialization: succeeds exactly on strings that can
be borrowed from the input, i.e. whose literal had no escape sequence. -/
def deStr : JValue → Option String
  | .str s false => some s
  | _ => none

/-- `u32` deserialization: integer literals in `[0, 2^32)`. -/
def deU32 : JValue → Option Nat
  | .num (.int i) => if 0 ≤ i ∧ i < 4294967296 then some i.toNat else none
  | _ => none

/-- `f64` deserialization: any JSON number (modelled exactly). -/
def deF64 : JValue → Option ExactRat
  | .num (.int i) => some ⟨i, 1⟩
  | .num (.float q) => some q
  | _ => none

/-- `fn deserialize_payload`: extract the JSON value as a borrowed `&str`,
then Base64-decode it into the buffer of `Payload::empty()`, recording the
decoded byte count as the payload's `size`.  Inherits the panic of
`decode_config_slice` when the decoded length exceeds the buffer. -/
def deserialize_payload (v : JValue) : DeResult Payload :=
  match deStr v with
  | none => .fail
  | some input =>
    match decode_config_slice input Payload.empty.bytes with
    | .crash => .crash
    | .fail => .fail
    | .ok (buf, n) => .ok ⟨buf, n⟩

/-- `struct UplinkMetadata` of `main.rs`. -/
structure UplinkMetadata where
  time : String
  longitude : ExactRat
  latitude : ExactRat
  altitude : ExactRat
deriving DecidableEq, Repr

/-- `struct UplinkMessage` of `main.rs` (the JSON field name of `payload`
is `payload_raw`, deserialized by `deserialize_payload`). -/
structure UplinkMessage where
  app_id : String
  dev_id : String
  hardware_serial : String
  port : Nat
  counter : Nat
  metadata : UplinkMetadata
  payload : Payload
deriving DecidableEq, Repr

/-- Fields of `UplinkMetadata` collected so far during its derived
`visit_map` loop. -/
structure PartialMeta where
  time : Option String := none
  longitude : Option ExactRat := none
  latitude : Option ExactRat := none
  altitude : Option ExactRat := none
deriving DecidableEq

/-- The derived `visit_map` loop of `UplinkMetadata`: members in textual
order; duplicate known field or undeserializable value fails; unknown
fields are skipped; all four fields must be present at the end. -/
def deMetadataFields : JObj → PartialMeta → Option UplinkMetadata
  | .nil, p =>
    match p.time, p.longitude, p.latitude, p.altitude with
    | some t, some lo, some la, some al => some ⟨t, lo, la, al⟩
    | _, _, _, _ => none
  | .cons k v tl, p =>
    if k = "time" then
      match p.time with
      | some _ => none
      | none =>
        match deStr v with
        | none => none
        | some s => deMetadataFields tl { p with time := some s }
    else if k = "longitude" then
      match p.longitude with
      | some _ => none
      | none =>
        match deF64 v with
        | none => none
        | some q => deMetadataFields tl { p with longitude := some q }
    else if k = "latitude" then
      match p.latitude with
      | some _ => none
      | none =>
        match deF64 v with
        | none => none
        | some q => deMetadataFields tl { p with latitude := some q }
    else if k = "altitude" then
      match p.altitude with
      | some _ => none
      | none =>
        match deF64 v with
        | none => none
        | some q => deMetadataFields tl { p with altitude := some q }
    else deMetadataFields tl p

/-- `UplinkMetadata` deserialization: an object run through its
`visit_map` loop. -/
def deMetadata (v : JValue) : Option UplinkMetadata :=
  match v with
  | .obj fs => deMetadataFields fs {}
  | _ => none

/-- Fields of `UplinkMessage` collected so far during its derived
`visit_map` loop. -/
structure PartialUplink where
  app_id : Option String := none
  dev_id : Option String := none
  hardware_serial : Option String := none
  port : Option Nat := none
  counter : Option Nat := none
  metadata : Option UplinkMetadata := none
  payload : Option Payload := none
deriving DecidableEq

/-- The derived `visit_map` loop of `UplinkMessage`: members in textual
order; `payload_raw`'s value goes through `deserialize_payload` (which can
panic on an oversized payload) the first time the key is met; a duplicate
known field or undeserializable value fails; unknown fields are skipped;
all seven fields must be present at the end. -/
def deUplinkFields : JObj → PartialUplink → DeResult UplinkMessage
  | .nil, p =>
    match p.app_id, p.dev_id, p.hardware_serial, p.port, p.counter, p.metadata, p.payload with
    | some a, some d, some h, some po, some co, some m, some pl => .ok ⟨a, d, h, po, co, m, pl⟩
    | _, _, _, _, _, _, _ => .fail
  | .cons k v tl, p =>
    if k = "app_id" then
      match p.app_id with
      | some _ => .fail
      | none =>
        match deStr v with
        | none => .fail
        | some s => deUplinkFields tl { p with app_id := some s }
    else if k = "dev_id" then
      match p.dev_id with
      | some _ => .fail
      | none =>
        match deStr v with
        | none => .fail
        | some s => deUplinkFields tl { p with dev_id := some s }
    else if k = "hardware_serial" then
      match p.hardware_serial with
      | some _ => .fail
      | none =>
        match deStr v with
        | none => .fail
        | some s => deUplinkFields tl { p with hardware_serial := some s }
    else if k = "port" then
      match p.port with
      | some _ => .fail
      | none =>
        match deU32 v with
        | none => .fail
        | some n => deUplinkFields tl { p with port := some n }
    else if k = "counter" then
      match p.counter with
      | some _ => .fail
      | none =>
        match deU32 v with
        | none => .fail
        | some n => deUplinkFields tl { p with counter := some n }
    else if k = "metadata" then
      match p.metadata with
      | some _ => .fail
      | none =>
        match deMetadata v with
        | none => .fail
        | some m => deUplinkFields tl { p with metadata := some m }
    else if k = "payload_raw" then
      match p.payload with
      | some _ => .fail
      | none =>
        match deserialize_payload v with
        | .crash => .crash
        | .fail => .fail
        | .ok pl => deUplinkFields tl { p with payload := some pl }
    else deUplinkFields tl p

/-- `serde_json::from_str::<UplinkMessage>`: parse the line as one JSON
value (followed only by whitespace), which must be an object, and run the
derived `visit_map` loop over its members. -/
def from_str (line : String) : DeResult UplinkMessage :=
  match parseJson line with
  | none => .fail
  | some (.obj fs) => deUplinkFields fs {}
  | some _ => .fail

/-! ## The pipeline: errors, effects, `process_line`, the ingestion loop -/

/-- `enum Error` of `main.rs`: `Io`, `Json`, `SQLite`. -/
inductive Error where
  | io
  | json
  | sqlite
deriving DecidableEq, Repr

/-- A value bound to one `?` of the prepared insert (`rusqlite::ToSql`):
`&str → TEXT`, `u32 → INTEGER`, `f64 → REAL`, `&[u8] → BLOB`. -/
inductive SqlValue where
  | text (s : String)
  | int (i : Int)
  | real (q : ExactRat)
  | blob (bs : List Nat)
deriving DecidableEq, Repr

/-- The values bound by `db_stmt.execute(&[...])` in `process_line`, in
the order they appear in the source. -/
def bindParams (msg : UplinkMessage) : List SqlValue :=
  [.text msg.app_id, .text msg.dev_id, .text msg.hardware_serial,
   .int msg.port, .int msg.counter, .text msg.metadata.time,
   .real msg.metadata.longitude, .real msg.metadata.latitude, .real msg.metadata.altitude,
   .blob msg.payload.as_slice]

/-- An observable side effect of the steady-state loop: the
`println!` summary, one executed row insert with its bound values, or the
per-line error report of `main`'s loop body. -/
inductive Effect where
  | log (appId devId time : String) (payloadBytes : Nat)
  | insert (params : List SqlValue)
  | report (e : Error)
deriving DecidableEq, Repr

/-- Equality of `Result` values is decidable (used to evaluate the model
on concrete inputs). -/
instance {e a : Type} [DecidableEq e] [DecidableEq a] : DecidableEq (Except e a) := fun x y =>
  match x, y with
  | .ok u, .ok v =>
    if h : u = v then .isTrue (by rw [h]) else .isFalse (by intro he; cases he; exact h rfl)
  | .error u, .error v =>
    if h : u = v then .isTrue (by rw [h]) else .isFalse (by intro he; cases he; exact h rfl)
  | .ok _, .error _ => .isFalse (by intro he; cases he)
  | .error _, .ok _ => .isFalse (by intro he; cases he)

/-- Is this effect a row insert? -/
def isInsertEffect : Effect → Bool
  | .insert _ => true
  | _ => false

/-- `fn process_line`: deserialize the line (propagating a JSON failure,
or the panic of an oversized payload), print the summary, then execute the
prepared insert.  The external database is the oracle `exec`, deciding
whether the insert succeeds.  Returns the effect trace and the `Result`. -/
def process_line (exec : List SqlValue → Bool) (line : String) :
    DeResult (List Effect × Except Error Unit) :=
  match from_str line with
  | .crash => .crash
  | .fail => .ok ([], .error .json)
  | .ok msg =>
    let params := bindParams msg
    .ok ([.log msg.app_id msg.dev_id msg.metadata.time msg.payload.size, .insert params],
      if exec params then .ok () else .error .sqlite)

/-- One iteration of `main`'s `for line in stdin.lock().lines()` body: a
read error becomes `Error::Io` and is reported; a `process_line` error is
reported; a panic aborts the process (`none`). -/
def stepLine (exec : List SqlValue → Bool) : Except Unit String → Option (List Effect)
  | .error _ => some [.report .io]
  | .ok l =>
    match process_line exec l with
    | .crash => none
    | .fail => some [.report .json]
    | .ok (effs, .ok _) => some effs
    | .ok (effs, .error e) => some (effs ++ [.report e])

/-- `main`'s ingestion loop over the whole (finite) input stream, modelled
as the list of `lines()` results; `none` is a process abort (panic),
`some` the effect trace of a normal run that ends at end-of-input. -/
def ingest (exec : List SqlValue → Bool) : List (Except Unit String) → Option (List Effect)
  | [] => some []
  | item :: rest => do
    let effs ← stepLine exec item
    let tail ← ingest exec rest
    some (effs ++ tail)

/-! ## Predicates used by the claim statements -/

/-- A JSON number rejected by `u32` deserialization: a negative or
out-of-`u32`-range integer, or any float (which is also how `serde_json`
represents non-integer literals and integers beyond 64 bits). -/
def isBadU32 : JNum → Bool
  | .int i => decide (i < 0) || decide (4294967295 < i)
  | .float _ => true

/-- A `payload_raw` value that cannot make `deserialize_payload` panic: if
it is a borrowable string of well-formed Base64, it decodes to at most
`MAX_PAYLOAD_SIZE` bytes. -/
def valuePayloadOk (v : JValue) : Bool :=
  match v with
  | .str s false =>
    match b64decode s with
    | some bs => bs.length ≤ Payload.MAX_PAYLOAD_SIZE
    | none => true
  | _ => true

/-- The line's `payload_raw` member (if present) cannot make the decode
panic — i.e. the one situation that makes `decode_config_slice` panic does
not arise on this line. -/
def payloadOk (fs : JObj) : Bool :=
  match jlookup fs "payload_raw" with
  | some v => valuePayloadOk v
  | none => true

/-- The member `k` is a string literal containing an escape sequence. -/
def strFieldEscaped (fs : JObj) (k : String) : Bool :=
  match jlookup fs k with
  | some (.str _ true) => true
  | _ => false

/-- The `metadata` member is an object whose `time` member is a string
literal containing an escape sequence. -/
def timeEscaped (fs : JObj) : Bool :=
  match jlookup fs "metadata" with
  | some (.obj mfs) => strFieldEscaped mfs "time"
  | _ => false

/-- The slot of known field `k` has not been filled yet in the partial
`UplinkMessage` state (`false` for unknown keys). -/
def slotEmpty (p : PartialUplink) (k : String) : Bool :=
  if k = "app_id" then p.app_id.isNone
  else if k = "dev_id" then p.dev_id.isNone
  else if k = "hardware_serial" then p.hardware_serial.isNone
  else if k = "port" then p.port.isNone
  else if k = "counter" then p.counter.isNone
  else if k = "metadata" then p.metadata.isNone
  else if k = "payload_raw" then p.payload.isNone
  else false

/-- The `visit_map` branch of known field `k` rejects value `v` outright
(`false` for unknown keys, which are skipped). -/
def fieldRejects (k : String) (v : JValue) : Bool :=
  if k = "app_id" ∨ k = "dev_id" ∨ k = "hardware_serial" ∨ k = "payload_raw" then (deStr v).isNone
  else if k = "port" ∨ k = "counter" then (deU32 v).isNone
  else if k = "metadata" then (deMetadata v).isNone
  else false

/-- The slot of known metadata field `k` has not been filled yet. -/
def metaSlotEmpty (q : PartialMeta) (k : String) : Bool :=
  if k = "time" then q.time.isNone
  else if k = "longitude" then q.longitude.isNone
  else if k = "latitude" then q.latitude.isNone
  else if k = "altitude" then q.altitude.isNone
  else false

/-- The `visit_map` branch of known metadata field `k` rejects value `v`. -/
def metaFieldRejects (k : String) (v : JValue) : Bool :=
  if k = "time" then (deStr v).isNone
  else if k = "longitude" ∨ k = "latitude" ∨ k = "altitude" then (deF64 v).isNone
  else false

/-! ## Concrete inputs used by witnesses and counterexamples -/

/-- A database oracle on which every insert succeeds. -/
def execAll : List SqlValue → Bool := fun _ => true

/-- A database oracle on which every insert fails. -/
def execNone : List SqlValue → Bool := fun _ => false

/-- 688 `A`s: well-formed Base64 that decodes to 516 zero bytes — more
than `MAX_PAYLOAD_SIZE`. -/
def bigB64 : String := ⟨List.replicate 688 'A'⟩

/-- A schema-conforming line except that its payload decodes to 516 bytes. -/
def lineOversized : String :=
  "\x7b\"app_id\":\"a1\",\"dev_id\":\"d1\",\"hardware_serial\":\"h1\",\"port\":1,\"counter\":2,\"metadata\":\x7b\"time\":\"t0\",\"longitude\":1.5,\"latitude\":2.5,\"altitude\":3.5\x7d,\"payload_raw\":\"" ++ bigB64 ++ "\"\x7d"

/-- A line whose `payload_raw` (oversized) textually precedes its negative
`port`. -/
def linePanicPort : String :=
  "\x7b\"app_id\":\"a1\",\"payload_raw\":\"" ++ bigB64 ++
  "\",\"port\":-1,\"dev_id\":\"d1\",\"hardware_serial\":\"h1\",\"counter\":2,\"metadata\":\x7b\"time\":\"t0\",\"longitude\":1,\"latitude\":2,\"altitude\":3\x7d\x7d"

/-- The parsed member list of `linePanicPort`. -/
def fsPanicPort : JObj :=
  .cons "app_id" (.str "a1" false) (
  .cons "payload_raw" (.str bigB64 false) (
  .cons "port" (.num (.int (-1))) (
  .cons "dev_id" (.str "d1" false) (
  .cons "hardware_serial" (.str "h1" false) (
  .cons "counter" (.num (.int 2)) (
  .cons "metadata" (.obj (
    .cons "time" (.str "t0" false) (
    .cons "longitude" (.num (.int 1)) (
    .cons "latitude" (.num (.int 2)) (
    .cons "altitude" (.num (.int 3)) .nil))))) .nil))))))

/-- The literal line of the field-fidelity property (spec §8). -/
def lineLiteral : String :=
  "\x7b\"app_id\":\"a1\",\"dev_id\":\"d1\",\"hardware_serial\":\"h1\",\"port\":1,\"counter\":2,\"metadata\":\x7b\"time\":\"2020-01-01T00:00:00Z\",\"longitude\":1.5,\"latitude\":2.5,\"altitude\":3.5\x7d,\"payload_raw\":\"AQID\"\x7d"

/-- A well-formed line whose `app_id` is the empty string. -/
def lineEmptyAppId : String :=
  "\x7b\"app_id\":\"\",\"dev_id\":\"d1\",\"hardware_serial\":\"h1\",\"port\":1,\"counter\":2,\"metadata\":\x7b\"time\":\"t\",\"longitude\":1,\"latitude\":2,\"altitude\":3\x7d,\"payload_raw\":\"AQID\"\x7d"

/-- The message `lineEmptyAppId` decodes to. -/
def msgEmptyAppId : UplinkMessage :=
  ⟨"", "d1", "h1", 1, 2, ⟨"t", ⟨1, 1⟩, ⟨2, 1⟩, ⟨3, 1⟩⟩, ⟨[1, 2, 3] ++ List.replicate 509 0, 3⟩⟩

/-- A well-formed line whose three identifier fields are all empty. -/
def lineEmptyIds : String :=
  "\x7b\"app_id\":\"\",\"dev_id\":\"\",\"hardware_serial\":\"\",\"port\":0,\"counter\":0,\"metadata\":\x7b\"time\":\"t\",\"longitude\":0,\"latitude\":0,\"altitude\":0\x7d,\"payload_raw\":\"AQID\"\x7d"

/-- The message `lineEmptyIds` decodes to. -/
def msgEmptyIds : UplinkMessage :=
  ⟨"", "", "", 0, 0, ⟨"t", ⟨0, 1⟩, ⟨0, 1⟩, ⟨0, 1⟩⟩, ⟨[1, 2, 3] ++ List.replicate 509 0, 3⟩⟩

/-- A small well-formed line (empty payload). -/
def lineSmall : String :=
  "\x7b\"app_id\":\"x\",\"dev_id\":\"y\",\"hardware_serial\":\"z\",\"port\":0,\"counter\":0,\"metadata\":\x7b\"time\":\"tt\",\"longitude\":0,\"latitude\":0,\"altitude\":0\x7d,\"payload_raw\":\"\"\x7d"

/-- The message `lineSmall` decodes to. -/
def msgSmall : UplinkMessage := ⟨"x", "y", "z", 0, 0, ⟨"tt", ⟨0, 1⟩, ⟨0, 1⟩, ⟨0, 1⟩⟩, Payload.empty⟩

/-- A small well-formed line with a one-byte payload. -/
def lineSix : String :=
  "\x7b\"app_id\":\"q\",\"dev_id\":\"r\",\"hardware_serial\":\"s\",\"port\":7,\"counter\":8,\"metadata\":\x7b\"time\":\"t6\",\"longitude\":4,\"latitude\":5,\"altitude\":6\x7d,\"payload_raw\":\"AA==\"\x7d"

/-- The message `lineSix` decodes to. -/
def msgSix : UplinkMessage :=
  ⟨"q", "r", "s", 7, 8, ⟨"t6", ⟨4, 1⟩, ⟨5, 1⟩, ⟨6, 1⟩⟩, ⟨[0] ++ List.replicate 511 0, 1⟩⟩

/-- A line that is valid JSON of the documented shape whose `app_id`
contains the escape sequence `\\"`. -/
def lineEscaped : String :=
  "\x7b\"app_id\":\"a\\\"b\",\"dev_id\":\"d1\",\"hardware_serial\":\"h1\",\"port\":1,\"counter\":2,\"metadata\":\x7b\"time\":\"t\",\"longitude\":1,\"latitude\":2,\"altitude\":3\x7d,\"payload_raw\":\"AQID\"\x7d"

/-- The parsed member list of `lineEscaped`. -/
def fsEscaped : JObj :=
  .cons "app_id" (.str "a\"b" true) (
  .cons "dev_id" (.str "d1" false) (
  .cons "hardware_serial" (.str "h1" false) (
  .cons "port" (.num (.int 1)) (
  .cons "counter" (.num (.int 2)) (
  .cons "metadata" (.obj (
    .cons "time" (.str "t" false) (
    .cons "longitude" (.num (.int 1)) (
    .cons "latitude" (.num (.int 2)) (
    .cons "altitude" (.num (.int 3)) .nil))))) (
  .cons "payload_raw" (.str "AQID" false) .nil))))))

/-- A line with a bad `port` (negative) and a small, in-bounds payload. -/
def lineBadPort : String :=
  "\x7b\"app_id\":\"a1\",\"dev_id\":\"d1\",\"hardware_serial\":\"h1\",\"port\":-1,\"counter\":2,\"metadata\":\x7b\"time\":\"t\",\"longitude\":1,\"latitude\":2,\"altitude\":3\x7d,\"payload_raw\":\"AQID\"\x7d"

/-- The parsed member list of `lineBadPort`. -/
def fsBadPort : JObj :=
  .cons "app_id" (.str "a1" false) (
  .cons "dev_id" (.str "d1" false) (
  .cons "hardware_serial" (.str "h1" false) (
  .cons "port" (.num (.int (-1))) (
  .cons "counter" (.num (.int 2)) (
  .cons "metadata" (.obj (
    .cons "time" (.str "t" false) (
    .cons "longitude" (.num (.int 1)) (
    .cons "latitude" (.num (.int 2)) (
    .cons "altitude" (.num (.int 3)) .nil))))) (
  .cons "payload_raw" (.str "AQID" false) .nil))))))

/-! ## Supporting lemmas -/

/-- The decode table inverts the encode table on 6-bit values. -/
theorem b64val_b64char : ∀ n, n < 64 → b64val (b64char n) = some n := by decide

/-- No encode-table symbol is the padding character. -/
theorem b64char_ne_pad : ∀ n, n < 64 → b64char n ≠ '=' := by decide

/-- The encoding of a non-empty byte list is non-empty. -/
theorem b64encodeChars_ne_nil (b : Nat) (bs : List Nat) : b64encodeChars (b :: bs) ≠ [] := by
  match bs with
  | [] => simp [b64encodeChars]
  | [_] => simp [b64encodeChars]
  | _ :: _ :: _ => simp [b64encodeChars]

/-- Group-wise Base64 round trip: decoding the standard padded encoding of
any byte list returns exactly that list. -/
theorem b64_roundtrip_chars : ∀ (bs : List Nat), (∀ b ∈ bs, b < 256) →
    b64decodeChars (b64encodeChars bs) = some bs
  | [], _ => by simp [b64encodeChars, b64decodeChars]
  | [b1], h => by
    have h1 : b1 < 256 := h b1 (by simp)
    have e1 : b64val (b64char (b1 / 4)) = some (b1 / 4) := b64val_b64char _ (by omega)
    have e2 : b64val (b64char (b1 % 4 * 16)) = some (b1 % 4 * 16) := b64val_b64char _ (by omega)
    simp [b64encodeChars, b64decodeChars, b64finalGroup, b64final2, e1, e2, Nat.mul_mod_left]
    omega
  | [b1, b2], h => by
    have h1 : b1 < 256 := h b1 (by simp)
    have h2 : b2 < 256 := h b2 (by simp)
    have e1 : b64val (b64char (b1 / 4)) = some (b1 / 4) := b64val_b64char _ (by omega)
    have e2 : b64val (b64char (b1 % 4 * 16 + b2 / 16)) = some (b1 % 4 * 16 + b2 / 16) :=
      b64val_b64char _ (by omega)
    have e3 : b64val (b64char (b2 % 16 * 4)) = some (b2 % 16 * 4) := b64val_b64char _ (by omega)
    have hne3 : b64char (b2 % 16 * 4) ≠ '=' := b64char_ne_pad _ (by omega)
    simp [b64encodeChars, b64decodeChars, b64finalGroup, b64final3, e1, e2, e3, hne3,
      Nat.mul_mod_left]
    omega
  | b1 :: b2 :: b3 :: rest, h => by
    have h1 : b1 < 256 := h b1 (by simp)
    have h2 : b2 < 256 := h b2 (by simp)
    have h3 : b3 < 256 := h b3 (by simp)
    have e1 : b64val (b64char (b1 / 4)) = some (b1 / 4) := b64val_b64char _ (by omega)
    have e2 : b64val (b64char (b1 % 4 * 16 + b2 / 16)) = some (b1 % 4 * 16 + b2 / 16) :=
      b64val_b64char _ (by omega)
    have e3 : b64val (b64char (b2 % 16 * 4 + b3 / 64)) = some (b2 % 16 * 4 + b3 / 64) :=
      b64val_b64char _ (by omega)
    have e4 : b64val (b64char (b3 % 64)) = some (b3 % 64) := b64val_b64char _ (by omega)
    have hfull : b64full (b64char (b1 / 4)) (b64char (b1 % 4 * 16 + b2 / 16))
        (b64char (b2 % 16 * 4 + b3 / 64)) (b64char (b3 % 64)) = some [b1, b2, b3] := by
      simp [b64full, e1, e2, e3, e4]
      refine ⟨by omega, by omega, by omega⟩
    match rest with
    | [] =>
      have hne : b64char (b3 % 64) ≠ '=' := b64char_ne_pad _ (by omega)
      simp [b64encodeChars, b64decodeChars, b64finalGroup, hne, hfull]
    | r :: rs =>
      have ih := b64_roundtrip_chars (r :: rs) (fun b hb => h b (by simp [hb]))
      have hne := b64encodeChars_ne_nil r rs
      simp only [b64encodeChars, b64decodeChars]
      simp [List.isEmpty_iff, hne, hfull, ih]

/-- A successful borrowed-`&str` extraction pins down the value's shape. -/
theorem deStr_some (v : JValue) (s : String) (h : deStr v = some s) : v = .str s false := by
  cases v with
  | str s' esc => cases esc <;> simp_all [deStr]
  | _ => simp [deStr] at h

/-- The empty payload's buffer has exactly the maximum capacity. -/
theorem empty_bytes_length : Payload.empty.bytes.length = Payload.MAX_PAYLOAD_SIZE := by
  simp [Payload.empty]

/-- A `payload_raw` value satisfying `valuePayloadOk` can never panic the
payload decode. -/
theorem deserialize_payload_no_crash (v : JValue) (hv : valuePayloadOk v = true) :
    deserialize_payload v ≠ .crash := by
  intro h
  unfold deserialize_payload at h
  cases hS : deStr v with
  | none => simp [hS] at h
  | some s =>
    have hv' := deStr_some v s hS
    subst hv'
    simp only [hS] at h
    unfold decode_config_slice at h
    cases hB : b64decode s with
    | none => simp [hB] at h
    | some bs =>
      simp only [hB] at h
      unfold valuePayloadOk at hv
      simp only [hB, decide_eq_true_eq] at hv
      rw [if_pos (by rw [empty_bytes_length]; exact hv)] at h
      exact DeResult.noConfusion h

/-- `payloadOk` only looks at the first `payload_raw` member. -/
theorem payloadOk_cons_ne (k : String) (v : JValue) (tl : JObj) (hk : ¬k = "payload_raw") :
    payloadOk (.cons k v tl) = payloadOk tl := by
  simp [payloadOk, jlookup, hk]

/-- `payloadOk` on a list headed by `payload_raw` is decided by its value. -/
theorem payloadOk_cons_self (v : JValue) (tl : JObj) :
    payloadOk (.cons "payload_raw" v tl) = valuePayloadOk v := by
  simp [payloadOk, jlookup]

/-- The `visit_map` loop of `UplinkMessage` can only panic through an
oversized payload: with the payload slot already filled, or a benign
`payload_raw` member, it never crashes. -/
theorem deUplink_no_crash : ∀ (fs : JObj) (p : PartialUplink),
    p.payload.isSome = true ∨ payloadOk fs = true → deUplinkFields fs p ≠ .crash
  | .nil, p, _ => by
    intro h
    simp only [deUplinkFields] at h
    split at h <;> simp_all
  | .cons kh vh tl, p, hp => by
    have ih : ∀ (p' : PartialUplink), p'.payload.isSome = true ∨ payloadOk tl = true →
        deUplinkFields tl p' ≠ .crash := fun p' h' => deUplink_no_crash tl p' h'
    intro h
    simp only [deUplinkFields] at h
    by_cases h7 : kh = "payload_raw"
    · subst h7
      rw [if_neg (by decide), if_neg (by decide), if_neg (by decide), if_neg (by decide),
        if_neg (by decide), if_neg (by decide), if_pos rfl] at h
      cases hA : p.payload with
      | some a => simp only [hA] at h; exact DeResult.noConfusion h
      | none =>
        rcases hp with hp | hp
        · rw [hA] at hp; simp at hp
        · rw [payloadOk_cons_self] at hp
          simp only [hA] at h
          cases hD : deserialize_payload vh with
          | crash => exact deserialize_payload_no_crash vh hp hD
          | fail => simp only [hD] at h; exact DeResult.noConfusion h
          | ok pl =>
            simp only [hD] at h
            exact ih _ (Or.inl (by simp)) h
    · have hOk : p.payload.isSome = true ∨ payloadOk tl = true := by
        rcases hp with hp | hp
        · exact Or.inl hp
        · exact Or.inr (by rwa [payloadOk_cons_ne _ _ _ h7] at hp)
      by_cases h1 : kh = "app_id"
      · rw [if_pos h1] at h
        cases hA : p.app_id with
        | some a => simp only [hA] at h; exact DeResult.noConfusion h
        | none =>
          simp only [hA] at h
          cases hS : deStr vh with
          | none => simp only [hS] at h; exact DeResult.noConfusion h
          | some s => simp only [hS] at h; refine ih _ ?_ h; exact hOk
      rw [if_neg h1] at h
      by_cases h2 : kh = "dev_id"
      · rw [if_pos h2] at h
        cases hA : p.dev_id with
        | some a => simp only [hA] at h; exact DeResult.noConfusion h
        | none =>
          simp only [hA] at h
          cases hS : deStr vh with
          | none => simp only [hS] at h; exact DeResult.noConfusion h
          | some s => simp only [hS] at h; refine ih _ ?_ h; exact hOk
      rw [if_neg h2] at h
      by_cases h3 : kh = "hardware_serial"
      · rw [if_pos h3] at h
        cases hA : p.hardware_serial with
        | some a => simp only [hA] at h; exact DeResult.noConfusion h
        | none =>
          simp only [hA] at h
          cases hS : deStr vh with
          | none => simp only [hS] at h; exact DeResult.noConfusion h
          | some s => simp only [hS] at h; refine ih _ ?_ h; exact hOk
      rw [if_neg h3] at h
      by_cases h4 : kh = "port"
      · rw [if_pos h4] at h
        cases hA : p.port with
        | some a => simp only [hA] at h; exact DeResult.noConfusion h
        | none =>
          simp only [hA] at h
          cases hS : deU32 vh with
          | none => simp only [hS] at h; exact DeResult.noConfusion h
          | some s => simp only [hS] at h; refine ih _ ?_ h; exact hOk
      rw [if_neg h4] at h
      by_cases h5 : kh = "counter"
      · rw [if_pos h5] at h
        cases hA : p.counter with
        | some a => simp only [hA] at h; exact DeResult.noConfusion h
        | none =>
          simp only [hA] at h
          cases hS : deU32 vh with
          | none => simp only [hS] at h; exact DeResult.noConfusion h
          | some s => simp only [hS] at h; refine ih _ ?_ h; exact hOk
      rw [if_neg h5] at h
      by_cases h6 : kh = "metadata"
      · rw [if_pos h6] at h
        cases hA : p.metadata with
        | some a => simp only [hA] at h; exact DeResult.noConfusion h
        | none =>
          simp only [hA] at h
          cases hS : deMetadata vh with
          | none => simp only [hS] at h; exact DeResult.noConfusion h
          | some s => simp only [hS] at h; refine ih _ ?_ h; exact hOk
      rw [if_neg h6, if_neg h7] at h
      exact ih _ hOk h

/-- If some member of the object binds a known field to a value its
`visit_map` branch rejects, and that field's slot is still empty, the loop
cannot succeed. -/
theorem deUplink_rejects : ∀ (fs : JObj) (p : PartialUplink) (k : String) (v : JValue)
    (m : UplinkMessage), jlookup fs k = some v → fieldRejects k v = true →
    slotEmpty p k = true → deUplinkFields fs p ≠ .ok m
  | .nil, p, k, v, m, hl, _, _ => by simp [jlookup] at hl
  | .cons kh vh tl, p, k, v, m, hl, hrej, hslot => by
    intro h
    by_cases hk : kh = k
    · subst hk
      have hv : vh = v := by simpa [jlookup] using hl
      subst hv
      by_cases h1 : kh = "app_id"
      · subst h1
        simp [slotEmpty] at hslot
        simp [fieldRejects] at hrej
        simp [deUplinkFields, hslot, hrej] at h
      by_cases h2 : kh = "dev_id"
      · subst h2
        simp [slotEmpty, h1] at hslot
        simp [fieldRejects, h1] at hrej
        simp [deUplinkFields, h1, hslot, hrej] at h
      by_cases h3 : kh = "hardware_serial"
      · subst h3
        simp [slotEmpty, h1, h2] at hslot
        simp [fieldRejects, h1, h2] at hrej
        simp [deUplinkFields, h1, h2, hslot, hrej] at h
      by_cases h4 : kh = "port"
      · subst h4
        simp [slotEmpty, h1, h2, h3] at hslot
        simp [fieldRejects, h1, h2, h3] at hrej
        simp [deUplinkFields, h1, h2, h3, hslot, hrej] at h
      by_cases h5 : kh = "counter"
      · subst h5
        simp [slotEmpty, h1, h2, h3, h4] at hslot
        simp [fieldRejects, h1, h2, h3, h4] at hrej
        simp [deUplinkFields, h1, h2, h3, h4, hslot, hrej] at h
      by_cases h6 : kh = "metadata"
      · subst h6
        simp [slotEmpty, h1, h2, h3, h4, h5] at hslot
        simp [fieldRejects, h1, h2, h3, h4, h5] at hrej
        simp [deUplinkFields, h1, h2, h3, h4, h5, hslot, hrej] at h
      by_cases h7 : kh = "payload_raw"
      · subst h7
        simp [slotEmpty, h1, h2, h3, h4, h5, h6] at hslot
        simp [fieldRejects, h1, h2, h3, h4, h5, h6] at hrej
        simp [deUplinkFields, h1, h2, h3, h4, h5, h6, hslot, hrej, deserialize_payload] at h
      simp [fieldRejects, h1, h2, h3, h4, h5, h6, h7] at hrej
    · simp only [jlookup, if_neg hk] at hl
      simp only [deUplinkFields] at h
      by_cases h1 : kh = "app_id"
      · rw [if_pos h1] at h
        have hk' : ¬k = "app_id" := fun e => hk (by rw [h1, e])
        cases hA : p.app_id with
        | some a => simp only [hA] at h; exact DeResult.noConfusion h
        | none =>
          simp only [hA] at h
          cases hS : deStr vh with
          | none => simp only [hS] at h; exact DeResult.noConfusion h
          | some s =>
            simp only [hS] at h
            have hse : slotEmpty { p with app_id := some s } k = true := by
              simpa [slotEmpty, hk'] using hslot
            exact deUplink_rejects tl _ k v m hl hrej hse h
      rw [if_neg h1] at h
      by_cases h2 : kh = "dev_id"
      · rw [if_pos h2] at h
        have hk' : ¬k = "dev_id" := fun e => hk (by rw [h2, e])
        cases hA : p.dev_id with
        | some a => simp only [hA] at h; exact DeResult.noConfusion h
        | none =>
          simp only [hA] at h
          cases hS : deStr vh with
          | none => simp only [hS] at h; exact DeResult.noConfusion h
          | some s =>
            simp only [hS] at h
            have hse : slotEmpty { p with dev_id := some s } k = true := by
              simpa [slotEmpty, hk'] using hslot
            exact deUplink_rejects tl _ k v m hl hrej hse h
      rw [if_neg h2] at h
      by_cases h3 : kh = "hardware_serial"
      · rw [if_pos h3] at h
        have hk' : ¬k = "hardware_serial" := fun e => hk (by rw [h3, e])
        cases hA : p.hardware_serial with
        | some a => simp only [hA] at h; exact DeResult.noConfusion h
        | none =>
          simp only [hA] at h
          cases hS : deStr vh with
          | none => simp only [hS] at h; exact DeResult.noConfusion h
          | some s =>
            simp only [hS] at h
            have hse : slotEmpty { p with hardware_serial := some s } k = true := by
              simpa [slotEmpty, hk'] using hslot
            exact deUplink_rejects tl _ k v m hl hrej hse h
      rw [if_neg h3] at h
      by_cases h4 : kh = "port"
      · rw [if_pos h4] at h
        have hk' : ¬k = "port" := fun e => hk (by rw [h4, e])
        cases hA : p.port with
        | some a => simp only [hA] at h; exact DeResult.noConfusion h
        | none =>
          simp only [hA] at h
          cases hS : deU32 vh with
          | none => simp only [hS] at h; exact DeResult.noConfusion h
          | some s =>
            simp only [hS] at h
            have hse : slotEmpty { p with port := some s } k = true := by
              simpa [slotEmpty, hk'] using hslot
            exact deUplink_rejects tl _ k v m hl hrej hse h
      rw [if_neg h4] at h
      by_cases h5 : kh = "counter"
      · rw [if_pos h5] at h
        have hk' : ¬k = "counter" := fun e => hk (by rw [h5, e])
        cases hA : p.counter with
        | some a => simp only [hA] at h; exact DeResult.noConfusion h
        | none =>
          simp only [hA] at h
          cases hS : deU32 vh with
          | none => simp only [hS] at h; exact DeResult.noConfusion h
          | some s =>
            simp only [hS] at h
            have hse : slotEmpty { p with counter := some s } k = true := by
              simpa [slotEmpty, hk'] using hslot
            exact deUplink_rejects tl _ k v m hl hrej hse h
      rw [if_neg h5] at h
      by_cases h6 : kh = "metadata"
      · rw [if_pos h6] at h
        have hk' : ¬k = "metadata" := fun e => hk (by rw [h6, e])
        cases hA : p.metadata with
        | some a => simp only [hA] at h; exact DeResult.noConfusion h
        | none =>
          simp only [hA] at h
          cases hS : deMetadata vh with
          | none => simp only [hS] at h; exact DeResult.noConfusion h
          | some s =>
            simp only [hS] at h
            have hse : slotEmpty { p with metadata := some s } k = true := by
              simpa [slotEmpty, hk'] using hslot
            exact deUplink_rejects tl _ k v m hl hrej hse h
      rw [if_neg h6] at h
      by_cases h7 : kh = "payload_raw"
      · rw [if_pos h7] at h
        have hk' : ¬k = "payload_raw" := fun e => hk (by rw [h7, e])
        cases hA : p.payload with
        | some a => simp only [hA] at h; exact DeResult.noConfusion h
        | none =>
          simp only [hA] at h
          cases hD : deserialize_payload vh with
          | crash => simp only [hD] at h; exact DeResult.noConfusion h
          | fail => simp only [hD] at h; exact DeResult.noConfusion h
          | ok pl =>
            simp only [hD] at h
            have hse : slotEmpty { p with payload := some pl } k = true := by
              simpa [slotEmpty, hk'] using hslot
            exact deUplink_rejects tl _ k v m hl hrej hse h
      rw [if_neg h7] at h
      exact deUplink_rejects tl p k v m hl hrej hslot h

/-- The metadata analogue of `deUplink_rejects`. -/
theorem deMeta_rejects : ∀ (fs : JObj) (q : PartialMeta) (k : String) (v : JValue)
    (mm : UplinkMetadata), jlookup fs k = some v → metaFieldRejects k v = true →
    metaSlotEmpty q k = true → deMetadataFields fs q ≠ some mm
  | .nil, q, k, v, mm, hl, _, _ => by simp [jlookup] at hl
  | .cons kh vh tl, q, k, v, mm, hl, hrej, hslot => by
    intro h
    by_cases hk : kh = k
    · subst hk
      have hv : vh = v := by simpa [jlookup] using hl
      subst hv
      by_cases h1 : kh = "time"
      · subst h1
        simp [metaSlotEmpty] at hslot
        simp [metaFieldRejects] at hrej
        simp [deMetadataFields, hslot, hrej] at h
      by_cases h2 : kh = "longitude"
      · subst h2
        simp [metaSlotEmpty, h1] at hslot
        simp [metaFieldRejects, h1] at hrej
        simp [deMetadataFields, h1, hslot, hrej] at h
      by_cases h3 : kh = "latitude"
      · subst h3
        simp [metaSlotEmpty, h1, h2] at hslot
        simp [metaFieldRejects, h1, h2] at hrej
        simp [deMetadataFields, h1, h2, hslot, hrej] at h
      by_cases h4 : kh = "altitude"
      · subst h4
        simp [metaSlotEmpty, h1, h2, h3] at hslot
        simp [metaFieldRejects, h1, h2, h3] at hrej
        simp [deMetadataFields, h1, h2, h3, hslot, hrej] at h
      simp [metaFieldRejects, h1, h2, h3, h4] at hrej
    · simp only [jlookup, if_neg hk] at hl
      simp only [deMetadataFields] at h
      by_cases h1 : kh = "time"
      · rw [if_pos h1] at h
        have hk' : ¬k = "time" := fun e => hk (by rw [h1, e])
        cases hA : q.time with
        | some a => simp only [hA] at h; exact Option.noConfusion h
        | none =>
          simp only [hA] at h
          cases hS : deStr vh with
          | none => simp only [hS] at h; exact Option.noConfusion h
          | some s =>
            simp only [hS] at h
            have hse : metaSlotEmpty { q with time := some s } k = true := by
              simpa [metaSlotEmpty, hk'] using hslot
            exact deMeta_rejects tl _ k v mm hl hrej hse h
      rw [if_neg h1] at h
      by_cases h2 : kh = "longitude"
      · rw [if_pos h2] at h
        have hk' : ¬k = "longitude" := fun e => hk (by rw [h2, e])
        cases hA : q.longitude with
        | some a => simp only [hA] at h; exact Option.noConfusion h
        | none =>
          simp only [hA] at h
          cases hS : deF64 vh with
          | none => simp only [hS] at h; exact Option.noConfusion h
          | some s =>
            simp only [hS] at h
            have hse : metaSlotEmpty { q with longitude := some s } k = true := by
              simpa [metaSlotEmpty, hk'] using hslot
            exact deMeta_rejects tl _ k v mm hl hrej hse h
      rw [if_neg h2] at h
      by_cases h3 : kh = "latitude"
      · rw [if_pos h3] at h
        have hk' : ¬k = "latitude" := fun e => hk (by rw [h3, e])
        cases hA : q.latitude with
        | some a => simp only [hA] at h; exact Option.noConfusion h
        | none =>
          simp only [hA] at h
          cases hS : deF64 vh with
          | none => simp only [hS] at h; exact Option.noConfusion h
          | some s =>
            simp only [hS] at h
            have hse : metaSlotEmpty { q with latitude := some s } k = true := by
              simpa [metaSlotEmpty, hk'] using hslot
            exact deMeta_rejects tl _ k v mm hl hrej hse h
      rw [if_neg h3] at h
      by_cases h4 : kh = "altitude"
      · rw [if_pos h4] at h
        have hk' : ¬k = "altitude" := fun e => hk (by rw [h4, e])
        cases hA : q.altitude with
        | some a => simp only [hA] at h; exact Option.noConfusion h
        | none =>
          simp only [hA] at h
          cases hS : deF64 vh with
          | none => simp only [hS] at h; exact Option.noConfusion h
          | some s =>
            simp only [hS] at h
            have hse : metaSlotEmpty { q with altitude := some s } k = true := by
              simpa [metaSlotEmpty, hk'] using hslot
            exact deMeta_rejects tl _ k v mm hl hrej hse h
      rw [if_neg h4] at h
      exact deMeta_rejects tl q k v mm hl hrej hslot h

/-- Every field that can reject starts with an empty slot in the initial
partial state. -/
theorem slotEmpty_default_of_rejects (k : String) (v : JValue) (h : fieldRejects k v = true) :
    slotEmpty ({} : PartialUplink) k = true := by
  by_cases h1 : k = "app_id"
  · subst h1; simp [slotEmpty]
  by_cases h2 : k = "dev_id"
  · subst h2; simp [slotEmpty, h1]
  by_cases h3 : k = "hardware_serial"
  · subst h3; simp [slotEmpty, h1, h2]
  by_cases h4 : k = "port"
  · subst h4; simp [slotEmpty, h1, h2, h3]
  by_cases h5 : k = "counter"
  · subst h5; simp [slotEmpty, h1, h2, h3, h4]
  by_cases h6 : k = "metadata"
  · subst h6; simp [slotEmpty, h1, h2, h3, h4, h5]
  by_cases h7 : k = "payload_raw"
  · subst h7; simp [slotEmpty, h1, h2, h3, h4, h5, h6]
  simp [fieldRejects, h1, h2, h3, h4, h5, h6, h7] at h

/-- A line that parses to an object with a rejected known field, and whose
payload cannot panic the decode, fails deserialization. -/
theorem from_str_rejected (line : String) (fs : JObj) (k : String) (v : JValue)
    (hp : parseJson line = some (.obj fs)) (hl : jlookup fs k = some v)
    (hrej : fieldRejects k v = true) (hok : payloadOk fs = true) :
    from_str line = .fail := by
  have hslot : slotEmpty ({} : PartialUplink) k = true := slotEmpty_default_of_rejects k v hrej
  unfold from_str
  rw [hp]
  cases hres : deUplinkFields fs {} with
  | crash => exact absurd hres (deUplink_no_crash fs {} (Or.inr hok))
  | fail => exact hres
  | ok m => exact absurd hres (deUplink_rejects fs {} k v m hl hrej hslot)

/-- An escaped string literal cannot be borrowed as `&str`. -/
theorem deStr_escaped (s : String) : deStr (.str s true) = none := rfl

/-- A bad number (negative, out of `u32` range, or float) is rejected by
`u32` deserialization. -/
theorem deU32_num_bad (n : JNum) (h : isBadU32 n = true) : deU32 (.num n) = none := by
  cases n with
  | int i =>
    simp only [isBadU32, Bool.or_eq_true, decide_eq_true_eq] at h
    simp only [deU32]
    rw [if_neg (by omega)]
  | float q => rfl

/-- Unfolding of `strFieldEscaped`. -/
theorem strFieldEscaped_spec (fs : JObj) (k : String) (h : strFieldEscaped fs k = true) :
    ∃ s, jlookup fs k = some (.str s true) := by
  unfold strFieldEscaped at h
  split at h
  · next s heq => exact ⟨s, heq⟩
  · exact absurd h (by simp)

/-- Unfolding of `timeEscaped`. -/
theorem timeEscaped_spec (fs : JObj) (h : timeEscaped fs = true) :
    ∃ mfs s, jlookup fs "metadata" = some (.obj mfs) ∧
      jlookup mfs "time" = some (.str s true) := by
  unfold timeEscaped at h
  split at h
  · next mfs heq =>
    obtain ⟨s, hs⟩ := strFieldEscaped_spec _ _ h
    exact ⟨mfs, s, heq, hs⟩
  · exact absurd h (by simp)

/-! ## The claims -/

/-- C1. The claim says an oversized payload fails with a `FormatError`
and never crashes or aborts the process.  The code instead panics: `bigB64`
is well-formed Base64 decoding to 516 bytes (more than
`MAX_PAYLOAD_SIZE = 512`), and both the payload decode and the processing
of a schema-conforming line carrying it abort the process
(`base64::decode_config_slice` panics when the output slice is smaller
than the decoded length) instead of returning a `FormatError`. -/
theorem oversized_payload_panics :
    (b64decode bigB64).map List.length = some 516 ∧
    Payload.MAX_PAYLOAD_SIZE = 512 ∧
    deserialize_payload (.str bigB64 false) = .crash ∧
    process_line execAll lineOversized = .crash ∧
    deserialize_payload (.str bigB64 false) ≠ .fail := by
  refine ⟨rfl, rfl, rfl, rfl, fun h => ?_⟩
  rw [show deserialize_payload (.str bigB64 false) = .crash from rfl] at h
  exact DeResult.noConfusion h

/-- C2. Round trip: for every byte sequence of length 0 through 512,
standard Base64-encoding it and decoding it through `deserialize_payload`
succeeds, and the resulting payload exposes exactly the original bytes
with `size` equal to the original length. -/
theorem payload_base64_roundtrip (bs : List Nat) (h8 : ∀ b ∈ bs, b < 256)
    (hlen : bs.length ≤ 512) :
    ∃ p : Payload, deserialize_payload (.str (b64encode bs) false) = .ok p ∧
      p.as_slice = bs ∧ p.size = bs.length := by
  have hdec : b64decode (b64encode bs) = some bs := b64_roundtrip_chars bs h8
  refine ⟨⟨writeInto Payload.empty.bytes bs, bs.length⟩, ?_, ?_, rfl⟩
  · unfold deserialize_payload decode_config_slice
    simp only [deStr, hdec]
    rw [if_pos (by rw [empty_bytes_length]; exact hlen)]
  · show (writeInto Payload.empty.bytes bs).take bs.length = bs
    unfold writeInto
    exact List.take_left bs _

/-- Witness for C2 at the byte sequence `[1, 2, 3]`. -/
theorem payload_base64_roundtrip_witness :
    (∀ b ∈ [1, 2, 3], b < 256) ∧ ([1, 2, 3] : List Nat).length ≤ 512 ∧
    ∃ p : Payload, deserialize_payload (.str (b64encode [1, 2, 3]) false) = .ok p ∧
      p.as_slice = [1, 2, 3] ∧ p.size = ([1, 2, 3] : List Nat).length :=
  ⟨by decide, by decide, payload_base64_roundtrip [1, 2, 3] (by decide) (by decide)⟩

/-- C3. Every payload produced by `Payload::empty` or a successful
`deserialize_payload` satisfies `size ≤ MAX_PAYLOAD_SIZE`, its buffer has
exactly `MAX_PAYLOAD_SIZE` bytes, and `as_slice` exposes exactly the first
`size` bytes of the buffer and nothing beyond them. -/
theorem payload_size_invariant :
    (Payload.empty.size ≤ Payload.MAX_PAYLOAD_SIZE ∧
     Payload.empty.bytes.length = Payload.MAX_PAYLOAD_SIZE ∧
     Payload.empty.as_slice = Payload.empty.bytes.take Payload.empty.size ∧
     Payload.empty.as_slice.length = Payload.empty.size) ∧
    ∀ (v : JValue) (p : Payload), deserialize_payload v = .ok p →
      p.size ≤ Payload.MAX_PAYLOAD_SIZE ∧
      p.bytes.length = Payload.MAX_PAYLOAD_SIZE ∧
      p.as_slice = p.bytes.take p.size ∧
      p.as_slice.length = p.size := by
  constructor
  · exact ⟨by simp [Payload.empty], empty_bytes_length, rfl, by simp [Payload.as_slice, Payload.empty]⟩
  · intro v p h
    unfold deserialize_payload at h
    cases hS : deStr v with
    | none => simp [hS] at h
    | some s =>
      simp only [hS] at h
      unfold decode_config_slice at h
      cases hB : b64decode s with
      | none => simp [hB] at h
      | some bs =>
        simp only [hB] at h
        by_cases hle : bs.length ≤ Payload.empty.bytes.length
        · rw [if_pos hle] at h
          cases h
          have hlen : bs.length ≤ Payload.MAX_PAYLOAD_SIZE := by
            rw [← empty_bytes_length]; exact hle
          refine ⟨hlen, ?_, rfl, ?_⟩
          · show (writeInto Payload.empty.bytes bs).length = Payload.MAX_PAYLOAD_SIZE
            unfold writeInto
            rw [List.length_append, List.length_drop, empty_bytes_length]
            omega
          · show ((writeInto Payload.empty.bytes bs).take bs.length).length = bs.length
            unfold writeInto
            rw [List.take_left bs _]
        · rw [if_neg hle] at h
          exact absurd h (by simp)

/-- Witness for C3 at the decode of the Base64 string `AQID`. -/
theorem payload_size_invariant_witness :
    (⟨[1, 2, 3] ++ List.replicate 509 0, 3⟩ : Payload).size ≤ Payload.MAX_PAYLOAD_SIZE ∧
    (⟨[1, 2, 3] ++ List.replicate 509 0, 3⟩ : Payload).bytes.length = Payload.MAX_PAYLOAD_SIZE ∧
    (⟨[1, 2, 3] ++ List.replicate 509 0, 3⟩ : Payload).as_slice =
      ([1, 2, 3] ++ List.replicate 509 0).take 3 ∧
    ((⟨[1, 2, 3] ++ List.replicate 509 0, 3⟩ : Payload).as_slice).length = 3 :=
  payload_size_invariant.2 (.str "AQID" false) ⟨[1, 2, 3] ++ List.replicate 509 0, 3⟩ rfl

/-- C4. The ingestion loop: end-of-input terminates the loop normally with
no further effects; any line whose processing returns (rather than
panicking) — including every `FormatError`, `StoreError` and `IOError`
outcome — leaves the loop running on the rest of the stream; and an error
result of `process_line` is reported to the console after the line's own
effects, without terminating the loop. -/
theorem loop_error_isolation (exec : List SqlValue → Bool) :
    ingest exec [] = some [] ∧
    (∀ (item : Except Unit String) (rest : List (Except Unit String)) (effs : List Effect),
      stepLine exec item = some effs →
      ingest exec (item :: rest) = (ingest exec rest).map fun tail => effs ++ tail) ∧
    (∀ (l : String) (effs : List Effect) (e : Error),
      process_line exec l = .ok (effs, .error e) →
      stepLine exec (.ok l) = some (effs ++ [.report e])) := by
  refine ⟨rfl, ?_, ?_⟩
  · intro item rest effs h
    simp only [ingest, h]
    cases hi : ingest exec rest <;> rfl
  · intro l effs e h
    simp [stepLine, h]

/-- Witness for C4: an `IOError` read item is reported and the loop reaches
the end of the stream; a failed insert on a good line is reported after
the line's log and insert effects. -/
theorem loop_error_isolation_witness :
    ingest execAll [.error ()] = (ingest execAll []).map (fun tail => [Effect.report .io] ++ tail) ∧
    stepLine execNone (.ok lineSmall) =
      some ([.log "x" "y" "tt" 0, .insert (bindParams msgSmall)] ++ [.report .sqlite]) :=
  ⟨(loop_error_isolation execAll).2.1 (.error ()) [] [.report .io] rfl,
   (loop_error_isolation execNone).2.2 lineSmall
     [.log "x" "y" "tt" 0, .insert (bindParams msgSmall)] .sqlite rfl⟩

/-- C5. `process_line` has no partial effects on decode failure and a fixed
effect order on success: a line that fails deserialization produces no log
and no insert (only the `Json` error); a line that deserializes emits the
summary log strictly before the insert is attempted, and the insert is
attempted (and the log kept) whether or not the database accepts it. -/
theorem process_line_effect_order (exec : List SqlValue → Bool) (line : String) :
    (from_str line = .fail → process_line exec line = .ok ([], .error .json)) ∧
    ∀ msg, from_str line = .ok msg →
      process_line exec line =
        .ok ([.log msg.app_id msg.dev_id msg.metadata.time msg.payload.size,
              .insert (bindParams msg)],
          if exec (bindParams msg) then .ok () else .error .sqlite) := by
  constructor
  · intro h; simp [process_line, h]
  · intro msg h; simp [process_line, h]

/-- Witness for C5: the non-JSON line produces no effects; a good line on a
failing database still logs before the failed insert. -/
theorem process_line_effect_order_witness :
    process_line execAll "not json" = .ok ([], .error .json) ∧
    process_line execNone lineSmall =
      .ok ([.log msgSmall.app_id msgSmall.dev_id msgSmall.metadata.time msgSmall.payload.size,
            .insert (bindParams msgSmall)],
        if execNone (bindParams msgSmall) then .ok () else .error .sqlite) :=
  ⟨(process_line_effect_order execAll "not json").1 rfl,
   (process_line_effect_order execNone lineSmall).2 msgSmall rfl⟩

/-- C6 counterexample. The claim says the insert binds *nine* values; the
prepared statement of `main.rs` binds ten (the claim's own list names
ten). -/
theorem insert_binds_not_nine_values :
    (bindParams msgSix).length = 10 ∧ ¬(bindParams msgSix).length = 9 := by decide

/-- C6 as amended: the insert binds *ten* values, in exactly the order
app_id, dev_id, hardware_serial, port, counter, time, longitude, latitude,
altitude, payload bytes, and a successful line executes exactly one row
insert. -/
theorem insert_binds_ten_values (exec : List SqlValue → Bool) (line : String)
    (msg : UplinkMessage) (h : from_str line = .ok msg) :
    process_line exec line =
      .ok ([.log msg.app_id msg.dev_id msg.metadata.time msg.payload.size,
            .insert (bindParams msg)],
        if exec (bindParams msg) then .ok () else .error .sqlite) ∧
    bindParams msg =
      [.text msg.app_id, .text msg.dev_id, .text msg.hardware_serial, .int msg.port,
       .int msg.counter, .text msg.metadata.time, .real msg.metadata.longitude,
       .real msg.metadata.latitude, .real msg.metadata.altitude,
       .blob msg.payload.as_slice] ∧
    ([.log msg.app_id msg.dev_id msg.metadata.time msg.payload.size,
      .insert (bindParams msg)] : List Effect).filter isInsertEffect =
      [.insert (bindParams msg)] := by
  refine ⟨by simp [process_line, h], rfl, ?_⟩
  simp [List.filter, isInsertEffect]

/-- Witness for C6 at `lineSix`. -/
theorem insert_binds_ten_values_witness :
    process_line execAll lineSix =
      .ok ([.log msgSix.app_id msgSix.dev_id msgSix.metadata.time msgSix.payload.size,
            .insert (bindParams msgSix)],
        if execAll (bindParams msgSix) then .ok () else .error .sqlite) ∧
    bindParams msgSix =
      [.text msgSix.app_id, .text msgSix.dev_id, .text msgSix.hardware_serial, .int msgSix.port,
       .int msgSix.counter, .text msgSix.metadata.time, .real msgSix.metadata.longitude,
       .real msgSix.metadata.latitude, .real msgSix.metadata.altitude,
       .blob msgSix.payload.as_slice] ∧
    ([.log msgSix.app_id msgSix.dev_id msgSix.metadata.time msgSix.payload.size,
      .insert (bindParams msgSix)] : List Effect).filter isInsertEffect =
      [.insert (bindParams msgSix)] :=
  insert_binds_ten_values execAll lineSix msgSix rfl

/-- C7. Field fidelity: on the literal line of spec §8, `process_line`
succeeds, and the ten values bound for the row are exactly the literal
fields, with payload bytes `[0x01, 0x02, 0x03]`. -/
theorem field_fidelity_literal_line :
    process_line execAll lineLiteral =
      .ok ([.log "a1" "d1" "2020-01-01T00:00:00Z" 3,
            .insert [.text "a1", .text "d1", .text "h1", .int 1, .int 2,
                     .text "2020-01-01T00:00:00Z", .real ⟨3, 2⟩, .real ⟨5, 2⟩, .real ⟨7, 2⟩,
                     .blob [1, 2, 3]]],
        .ok ()) := by decide

/-- C8 counterexample. The claim says an empty identifier field prevents
successful decoding; in fact a line whose `app_id` is the empty string
decodes successfully. -/
theorem empty_app_id_decodes :
    from_str lineEmptyAppId = .ok msgEmptyAppId ∧ msgEmptyAppId.app_id = "" := ⟨rfl, rfl⟩

/-- C8 as amended: the identifier fields of a parsed `UplinkMessage` are
arbitrary strings copied verbatim from the line — the parser enforces no
non-emptiness, and a line with all three identifiers empty decodes
successfully. -/
theorem empty_identifiers_decode :
    from_str lineEmptyIds = .ok msgEmptyIds ∧
    msgEmptyIds.app_id = "" ∧ msgEmptyIds.dev_id = "" ∧ msgEmptyIds.hardware_serial = "" :=
  ⟨rfl, rfl, rfl, rfl⟩

/-- C9 counterexample. The claim says every line with a negative `port`
fails with a `FormatError` (and no effects). On `linePanicPort` — whose
`port` is `-1` but whose oversized `payload_raw` precedes it — the
deserializer panics (aborting the process) before the `port` range check,
so the line does not fail with a `FormatError`. -/
theorem bad_port_preempted_by_payload_panic :
    parseJson linePanicPort = some (.obj fsPanicPort) ∧
    jlookup fsPanicPort "port" = some (.num (.int (-1))) ∧
    isBadU32 (.int (-1)) = true ∧
    from_str linePanicPort = .crash ∧
    from_str linePanicPort ≠ .fail := by
  have hc : from_str linePanicPort = .crash := rfl
  refine ⟨rfl, rfl, by decide, hc, fun h => ?_⟩
  rw [hc] at h
  exact DeResult.noConfusion h

/-- C9 as amended: provided the line's `payload_raw` cannot panic the
decode (it is absent, malformed, escaped, or decodes to at most 512
bytes), every line whose `port` or `counter` member is a negative integer,
out of `u32` range, or a non-integer number fails deserialization with a
`FormatError` and produces no log line and no insert. -/
theorem bad_port_counter_rejected (exec : List SqlValue → Bool) (line : String) (fs : JObj)
    (n : JNum) (hp : parseJson line = some (.obj fs)) (hbad : isBadU32 n = true)
    (hfield : jlookup fs "port" = some (.num n) ∨ jlookup fs "counter" = some (.num n))
    (hok : payloadOk fs = true) :
    process_line exec line = .ok ([], .error .json) := by
  have hfail : from_str line = .fail := by
    rcases hfield with hl | hl
    · exact from_str_rejected line fs "port" _ hp hl
        (by simp [fieldRejects, deU32_num_bad n hbad]) hok
    · exact from_str_rejected line fs "counter" _ hp hl
        (by simp [fieldRejects, deU32_num_bad n hbad]) hok
  simp [process_line, hfail]

/-- Witness for the amended C9 at `lineBadPort` (negative `port`, small
payload). -/
theorem bad_port_counter_rejected_witness :
    parseJson lineBadPort = some (.obj fsBadPort) ∧
    isBadU32 (.int (-1)) = true ∧
    jlookup fsBadPort "port" = some (.num (.int (-1))) ∧
    payloadOk fsBadPort = true ∧
    process_line execAll lineBadPort = .ok ([], .error .json) :=
  ⟨rfl, by decide, rfl, by decide,
   bad_port_counter_rejected execAll lineBadPort fsBadPort (.int (-1)) rfl (by decide) (Or.inl rfl) rfl⟩

/-- C10. Because the string fields are zero-copy borrows, any line that
parses to an object of the documented shape (in particular, one whose
payload stays within bounds) in which `app_id`, `dev_id`,
`hardware_serial`, `payload_raw`, or the metadata `time` is a string
literal containing an escape sequence fails deserialization with a
`FormatError` — no log, no insert. -/
theorem escaped_string_fields_fail (exec : List SqlValue → Bool) (line : String) (fs : JObj)
    (hp : parseJson line = some (.obj fs))
    (hok : payloadOk fs = true)
    (hesc : strFieldEscaped fs "app_id" = true ∨ strFieldEscaped fs "dev_id" = true ∨
            strFieldEscaped fs "hardware_serial" = true ∨
            strFieldEscaped fs "payload_raw" = true ∨ timeEscaped fs = true) :
    process_line exec line = .ok ([], .error .json) := by
  have hfail : from_str line = .fail := by
    rcases hesc with h | h | h | h | h
    · obtain ⟨s, hl⟩ := strFieldEscaped_spec fs _ h
      exact from_str_rejected line fs "app_id" _ hp hl (by simp [fieldRejects, deStr_escaped]) hok
    · obtain ⟨s, hl⟩ := strFieldEscaped_spec fs _ h
      exact from_str_rejected line fs "dev_id" _ hp hl (by simp [fieldRejects, deStr_escaped]) hok
    · obtain ⟨s, hl⟩ := strFieldEscaped_spec fs _ h
      exact from_str_rejected line fs "hardware_serial" _ hp hl
        (by simp [fieldRejects, deStr_escaped]) hok
    · obtain ⟨s, hl⟩ := strFieldEscaped_spec fs _ h
      exact from_str_rejected line fs "payload_raw" _ hp hl
        (by simp [fieldRejects, deStr_escaped]) hok
    · obtain ⟨mfs, s, hm, hts⟩ := timeEscaped_spec fs h
      have hmeta : deMetadataFields mfs {} = none := by
        cases hres : deMetadataFields mfs {} with
        | none => rfl
        | some mm =>
          exact absurd hres (deMeta_rejects mfs {} "time" (.str s true) mm hts
            (by simp [metaFieldRejects, deStr_escaped]) (by simp [metaSlotEmpty]))
      exact from_str_rejected line fs "metadata" _ hp hm
        (by simp [fieldRejects, deMetadata, hmeta]) hok
  simp [process_line, hfail]

/-- Witness for C10 at `lineEscaped` (`app_id` contains `\\"`). -/
theorem escaped_string_fields_fail_witness :
    parseJson lineEscaped = some (.obj fsEscaped) ∧
    payloadOk fsEscaped = true ∧
    strFieldEscaped fsEscaped "app_id" = true ∧
    process_line execAll lineEscaped = .ok ([], .error .json) :=
  ⟨rfl, rfl, rfl, escaped_string_fields_fail execAll lineEscaped fsEscaped rfl rfl (Or.inl rfl)⟩

end Ttn
